import Mathlib

attribute [local semireducible] Rat.mul Rat.add Rat.inv Rat.sub Rat.ofScientific

/-!
Verification development for the SiFR benchmark runner (src/src/runner.js).

The JavaScript source is shallowly embedded: every function below is a
direct translation of the corresponding function of `runner.js`.  String
operations are modelled on `List Char` (JavaScript strings are sequences
of characters; all inputs of interest are plain text), numbers are
modelled by `Nat`/`Int`/`Rat` (`Rat` stands for the exact value of the
decimal literals involved; JavaScript NaN is modelled by `Option.none`),
and the effectful parts (file reads, provider dispatch, wall-clock
latency) are passed in as explicit oracle functions, so that every
definition is executable.
-/

namespace Sifr

/-! ## JavaScript string primitives -/

/-- Characters of a string. -/
def chars (s : String) : List Char := s.toList

/-- Rebuild a string from characters. -/
def ofChars (cs : List Char) : String := String.mk cs

/-- JavaScript `String.prototype.trim` on a character list: strip leading and
trailing whitespace. -/
def trimChars (cs : List Char) : List Char :=
  ((cs.dropWhile Char.isWhitespace).reverse.dropWhile Char.isWhitespace).reverse

/-- JavaScript `s.trim()`. -/
def jsTrim (s : String) : String := ofChars (trimChars (chars s))

/-- JavaScript `s.toLowerCase()` (ASCII case folding, which covers every
string the benchmark handles). -/
def jsToLower (s : String) : String := ofChars ((chars s).map Char.toLower)

/-- The normalization applied by `scoreResponse` before every comparison:
`x.toLowerCase().trim()`. -/
def jsNorm (s : String) : String := jsTrim (jsToLower s)

/-- JavaScript `s.startsWith(m)`. -/
def jsStartsWith (s m : String) : Bool := (chars m).isPrefixOf (chars s)

/-- Drop the first `n` characters of a string.  Used to model
`line.replace(marker, '')` on a line that starts with `marker` (the
`replace` removes the first occurrence, which is the leading one). -/
def jsDrop (s : String) (n : Nat) : String := ofChars ((chars s).drop n)

/-- Does the pattern occur as a contiguous run inside the haystack?
Models JavaScript `hay.includes(pat)` at the character level. -/
def includesChars (hay pat : List Char) : Bool :=
  match hay with
  | [] => pat.isEmpty
  | _ :: t => pat.isPrefixOf hay || includesChars t pat

/-- JavaScript `a.includes(b)`. -/
def jsIncludes (a b : String) : Bool := includesChars (chars a) (chars b)

/-- Split a character list at every occurrence of the separator character.
Models JavaScript `s.split(sep)` for a one-character separator: splitting
the empty string yields one empty piece, never an empty list. -/
def splitCharAux (sep : Char) : List Char → List Char → List (List Char)
  | [], acc => [acc.reverse]
  | x :: xs, acc =>
    if x = sep then acc.reverse :: splitCharAux sep xs []
    else splitCharAux sep xs (x :: acc)

/-- JavaScript `s.split(sep)` for a single-character separator. -/
def jsSplit (s : String) (sep : Char) : List String :=
  (splitCharAux sep (chars s) []).map ofChars

/-! ## JavaScript number primitives -/

/-- Numeric value of a run of decimal digits. -/
def digitsVal (ds : List Char) : Nat :=
  ds.foldl (fun n c => n * 10 + (c.toNat - 48)) 0

/-- JavaScript `parseInt(s)` restricted to base-10 input (the only shape the
benchmark meets): skip leading whitespace, read an optional sign and then a
longest run of decimal digits; `none` models NaN (no digits found). -/
def parseIntJs (s : String) : Option Int :=
  let cs := (chars s).dropWhile Char.isWhitespace
  let signAndRest : Int × List Char :=
    match cs with
    | '-' :: t => (-1, t)
    | '+' :: t => (1, t)
    | _ => (1, cs)
  let ds := signAndRest.2.takeWhile Char.isDigit
  if ds.isEmpty then none
  else some (signAndRest.1 * (digitsVal ds : Int))

/-- Ten to a natural power, by plain recursion (kernel-reducible). -/
def pow10n : Nat → ℚ
  | 0 => 1
  | n + 1 => 10 * pow10n n

/-- Ten to an integer power. -/
def pow10z : Int → ℚ
  | Int.ofNat n => pow10n n
  | Int.negSucc n => 1 / pow10n (n + 1)

/-- Value of a fractional digit run: `fracVal ['2','5'] = 1/4`. -/
def fracVal (ds : List Char) : ℚ :=
  (digitsVal ds : ℚ) / pow10n ds.length

/-- JavaScript `parseFloat(s)` on finite decimal notation: skip leading
whitespace, read an optional sign, an integer digit run, an optional
fractional part, and an optional well-formed exponent; the longest valid
prefix is converted and `none` models NaN (no digits at all). -/
def parseFloatJs (s : String) : Option ℚ :=
  let cs := (chars s).dropWhile Char.isWhitespace
  let signAndRest : ℚ × List Char :=
    match cs with
    | '-' :: t => (-1, t)
    | '+' :: t => (1, t)
    | _ => (1, cs)
  let intDs := signAndRest.2.takeWhile Char.isDigit
  let rest1 := signAndRest.2.drop intDs.length
  let fracDs : List Char :=
    match rest1 with
    | '.' :: t => t.takeWhile Char.isDigit
    | _ => []
  let rest2 : List Char :=
    match rest1 with
    | '.' :: t => t.drop fracDs.length
    | _ => rest1
  if intDs.isEmpty && fracDs.isEmpty then none
  else
    let mantissa : ℚ := signAndRest.1 * ((digitsVal intDs : ℚ) + fracVal fracDs)
    let expVal : Int :=
      match rest2 with
      | 'e' :: t | 'E' :: t =>
        let expSignAndRest : Int × List Char :=
          match t with
          | '-' :: u => (-1, u)
          | '+' :: u => (1, u)
          | _ => (1, t)
        let eds := expSignAndRest.2.takeWhile Char.isDigit
        if eds.isEmpty then 0 else expSignAndRest.1 * (digitsVal eds : Int)
      | _ => 0
    some (mantissa * pow10z expVal)

/-- JavaScript strict equality `===` on two `parseFloat` results: NaN is
never equal to anything, including itself. -/
def jsNumEq (a b : Option ℚ) : Bool :=
  match a, b with
  | some x, some y => x == y
  | _, _ => false

/-- JavaScript truthiness of the error field tested by `if (error)`:
`null` and the empty string are falsy, every other string is truthy. -/
def jsTruthy : Option String → Bool
  | none => false
  | some s => s != ""

/-- Insertion-order set of a list, as built by `new Set(list)`: keep the
first occurrence of each element, preserving order. -/
def jsSetList {α : Type} [DecidableEq α] (l : List α) : List α :=
  l.foldl (fun acc x => if x ∈ acc then acc else acc ++ [x]) []

/-- JavaScript `Math.round` and the value displayed by `toFixed(1)` both
round to the nearest integer, half toward positive infinity, which is
Mathlib's `round`.  `jsToFixed1 q` is the numeric value of the string
`q.toFixed(1)`. -/
def jsToFixed1 (q : ℚ) : ℚ := (round (q * 10) : ℚ) / 10

/-! ## Data model (runner.js top of file and per-trial objects) -/

/-- One benchmark task from `benchmark/tasks.json`: identifier, question,
scoring-rule tag. -/
structure Task where
  id : String
  question : String
  scoring : String
deriving DecidableEq, Repr

/-- Result of `parseResponse`: answer text, confidence integer, evidence. -/
structure ParsedAnswer where
  answer : String
  confidence : Int
  evidence : String
deriving DecidableEq, Repr

/-- Result of `queryModel`: `{ response, tokens, latency, error }`.
`response = none` models JavaScript `null`. -/
structure ProviderReply where
  response : Option String
  tokens : Nat
  latency : Nat
  error : Option String
deriving DecidableEq, Repr

/-- One record pushed onto `this.results`.  The JavaScript error record
`{ model, format, pageId, taskId, error, score }` simply lacks the other
fields, so every field that is present on only one of the two record
shapes is an `Option`, with `none` for an absent field. -/
structure TrialRecord where
  model : String
  format : String
  pageId : String
  taskId : String
  score : ℚ
  error : Option String
  response : Option String
  confidence : Option Int
  evidence : Option String
  expected : Option String
  tokens : Option Nat
  latency : Option Nat
  runIdx : Option Nat
deriving DecidableEq, Repr

/-- The fixed model registry `MODELS`: model key to (provider, provider
model name). -/
def MODELS : List (String × String × String) :=
  [("gpt-4o", "openai", "gpt-4o"),
   ("gpt-4o-mini", "openai", "gpt-4o-mini"),
   ("claude-sonnet", "anthropic", "claude-sonnet-4-20250514"),
   ("claude-haiku", "anthropic", "claude-haiku-4-5-20251001")]

/-- Lookup `MODELS[modelKey]`, as an association-list search. -/
def lookupModel (modelKey : String) : Option (String × String) :=
  (MODELS.find? (fun e => e.1 == modelKey)).map (·.2)

/-- Is the model key present in the registry? -/
def registered (modelKey : String) : Bool := (lookupModel modelKey).isSome

/-- The fixed format list `FORMATS`. -/
def FORMATS : List String := ["sifr", "html_raw", "html_clean", "axtree"]

/-- Run configuration, after the defaults of `run()` have been applied:
pages, models, formats, the task list loaded by `loadTasks`, and the
repetition count. -/
structure Config where
  pages : List String
  models : List String
  formats : List String
  tasks : List Task
  runs : Nat
deriving DecidableEq, Repr

/-! ## PromptBuilder (`buildPrompt`) -/

/-- The prompt template of `buildPrompt`. -/
def buildPrompt (task : Task) (context : String) (format : String) : String :=
  "You are analyzing a webpage represented in " ++ format ++
  " format.\n\nCONTEXT:\n" ++ context ++ "\n\nQUESTION: " ++ task.question ++
  "\n\nRespond in this exact format:\nANSWER: [your answer]\nCONFIDENCE: [0-100]\nEVIDENCE: [element IDs or text that supports your answer]"

/-! ## ProviderClient (`queryModel`)

The provider network call is a suspension point whose result we cannot
compute; it is abstracted as a `DispatchOutcome`: either the provider call
chain inside the `try` block produced a reply text and a token total, or
somewhere in it an error was thrown.  The wall-clock latency measured by
`Date.now()` differences is likewise passed in. -/

/-- Outcome of one provider dispatch, as observed inside the `try` block of
`queryModel`: either a reply text with the provider token total, or a
thrown error with its message. -/
inductive DispatchOutcome where
  | success (text : String) (tokens : Nat)
  | failure (msg : String)
deriving DecidableEq, Repr

/-- Model of `queryModel(modelKey, prompt)`.  The destructuring
`const { provider, model } = MODELS[modelKey]` happens before the
`try`/`catch` and before any network traffic: for an unregistered key it
throws a TypeError, modelled by `Except.error`.  Inside the `try`, any
thrown error is caught and converted into a reply value. -/
def queryModel (modelKey : String) (outcome : DispatchOutcome) (latency : Nat) :
    Except String ProviderReply :=
  if registered modelKey then
    match outcome with
    | .success text tokens => .ok ⟨some text, tokens, latency, none⟩
    | .failure msg => .ok ⟨none, 0, latency, some msg⟩
  else
    .error "TypeError: cannot destructure MODELS entry"

/-! ## ResponseParser (`parseResponse`) -/

/-- The body of the `for (const line of lines)` loop of `parseResponse`.
`line.replace(marker, '')` removes the first occurrence of the marker,
which under the `startsWith` guard is the leading one, hence `jsDrop`. -/
def parseStep (r : ParsedAnswer) (line : String) : ParsedAnswer :=
  if jsStartsWith line "ANSWER:" then
    { r with answer := jsTrim (jsDrop line 7) }
  else if jsStartsWith line "CONFIDENCE:" then
    { r with confidence :=
        match parseIntJs (jsTrim (jsDrop line 11)) with
        | some v => v
        | none => 0 }
  else if jsStartsWith line "EVIDENCE:" then
    { r with evidence := jsTrim (jsDrop line 9) }
  else r

/-- Model of `parseResponse(raw)`: split on newlines and scan every line, starting
from the all-default record. -/
def parseResponse (raw : String) : ParsedAnswer :=
  (jsSplit raw '\n').foldl parseStep ⟨"", 0, ""⟩

/-! ## ScoringEngine (`scoreResponse`) -/

/-- Model of `scoreResponse(parsed, groundTruth, scoringType)`.  The `|| 0` applied
to precision and recall in the source turns the NaN of `0/0` into `0`;
rational division already returns `0` there, and both token sets are
provably nonempty (a JavaScript `split` never returns an empty array), so
no other division-by-zero shape can occur. -/
def scoreResponse (parsed : ParsedAnswer) (groundTruth : String)
    (scoringType : String) : ℚ :=
  let answer := jsNorm parsed.answer
  let truth := jsNorm groundTruth
  if scoringType = "element_id" then
    (if answer = truth then 1 else 0)
  else if scoringType = "text_match" then
    (if answer = truth then 1
     else if jsIncludes answer truth || jsIncludes truth answer then 1/2
     else 0)
  else if scoringType = "numeric" then
    (if jsNumEq (parseFloatJs answer) (parseFloatJs truth) then 1 else 0)
  else if scoringType = "precision_recall" then
    let predSet := jsSetList ((jsSplit answer ',').map jsTrim)
    let truthSet := jsSetList ((jsSplit truth ',').map jsTrim)
    let inter := predSet.filter (fun x => x ∈ truthSet)
    let precision : ℚ := (inter.length : ℚ) / (predSet.length : ℚ)
    let rcl : ℚ := (inter.length : ℚ) / (truthSet.length : ℚ)
    (if precision + rcl > 0 then
      2 * precision * rcl / (precision + rcl)
     else 0)
  else
    (if answer = truth then 1 else 0)

/-! ## ExecutionOrchestrator (`runSingleTest` and `run`)

The remaining effects are passed as oracles:
- `pageText page format` is the content read by `loadPage` (the claims
  assume every page file loads);
- `gt page taskId` is `groundTruth.tasks[taskId].answer` of the file read
  by `loadGroundTruth` for `page`, with `none` when the task id is absent
  from that file (reading `.answer` of the absent entry throws);
- `env modelKey prompt` is the observed dispatch outcome and measured
  latency of the one provider call `queryModel` makes for that trial.

`run` is sequential, so a trial is fully determined by its position;
`Except.error` models an exception escaping `run`, and the list of
`DispatchCall`s records which provider calls were issued before the run
finished or aborted. -/

/-- One provider network call: the model key and the prompt sent. -/
structure DispatchCall where
  model : String
  prompt : String
deriving DecidableEq, Repr

/-- Environment of one run: dispatch outcomes and latencies keyed by
(model, prompt). -/
def Env : Type := String → String → DispatchOutcome × Nat

/-- Model of `runSingleTest(model, format, pageId, task, groundTruth)` together with
the provider calls it makes: none when `queryModel` throws on an
unregistered key, one otherwise.  The source guards the early return with
the truthiness test `if (error)`: only a non-empty error string takes the
early-return record (which carries only model, format, page, task, error
and score).  A caught error whose message is the empty string is falsy,
so the code falls through and calls `parseResponse` on the null reply
text, which throws — modelled by `Except.error` — as does a missing
ground-truth entry on the success path.  The `run` field is attached
later by `run`. -/
def runSingleTest (env : Env) (pageText : String → String → String)
    (gt : String → Option String) (modelKey format pageId : String)
    (task : Task) : List DispatchCall × Except String TrialRecord :=
  let context := pageText pageId format
  let prompt := buildPrompt task context format
  match queryModel modelKey (env modelKey prompt).1 (env modelKey prompt).2 with
  | .error e => ([], .error e)
  | .ok reply =>
    ([⟨modelKey, prompt⟩],
     if jsTruthy reply.error then
       .ok { model := modelKey, format := format, pageId := pageId,
             taskId := task.id, score := 0, error := reply.error,
             response := none, confidence := none, evidence := none,
             expected := none, tokens := none, latency := none,
             runIdx := none }
     else
       match reply.response with
       | some text =>
         let parsed := parseResponse text
         match gt task.id with
         | none => .error "TypeError: cannot read answer of undefined"
         | some expectedAnswer =>
           .ok { model := modelKey, format := format, pageId := pageId,
                 taskId := task.id,
                 score := scoreResponse parsed expectedAnswer task.scoring,
                 error := none,
                 response := some parsed.answer,
                 confidence := some parsed.confidence,
                 evidence := some parsed.evidence,
                 expected := some expectedAnswer,
                 tokens := some reply.tokens,
                 latency := some reply.latency,
                 runIdx := none }
       | none => .error "TypeError: cannot split null")

/-- One leaf of the cross-product loop nest of `run`: page, model, format,
task and the one-based run index assigned by `result.run = r + 1`. -/
structure Trial where
  page : String
  model : String
  format : String
  task : Task
  runIdx : Nat
deriving DecidableEq, Repr

/-- The loop nest of `run`, outermost to innermost: page, model, format,
task, run index. -/
def trialList (cfg : Config) : List Trial :=
  cfg.pages.flatMap fun p =>
    cfg.models.flatMap fun m =>
      cfg.formats.flatMap fun f =>
        cfg.tasks.flatMap fun t =>
          (List.range cfg.runs).map fun r => ⟨p, m, f, t, r + 1⟩

/-- Sequential execution of a list of trials: each trial runs
`runSingleTest`, attaches the run index, and appends its record; a thrown
error aborts everything after it. -/
def runTrials (env : Env) (pageText : String → String → String)
    (gt : String → String → Option String) :
    List Trial → List DispatchCall × Except String (List TrialRecord)
  | [] => ([], .ok [])
  | tr :: rest =>
    let step := runSingleTest env pageText (gt tr.page) tr.model tr.format
      tr.page tr.task
    match step.2 with
    | .error e => (step.1, .error e)
    | .ok record =>
      let next := runTrials env pageText gt rest
      (step.1 ++ next.1,
       match next.2 with
       | .ok records => .ok ({ record with runIdx := some tr.runIdx } :: records)
       | .error e => .error e)

/-- Model of `run()`: iterate the full cross-product and collect the results. -/
def run (cfg : Config) (env : Env) (pageText : String → String → String)
    (gt : String → String → Option String) :
    List DispatchCall × Except String (List TrialRecord) :=
  runTrials env pageText gt (trialList cfg)

/-- The identity tuple of a record: (page, model, format, task, run). -/
def recKey (r : TrialRecord) : String × String × String × String × Option Nat :=
  (r.pageId, r.model, r.format, r.taskId, r.runIdx)

/-- The identity tuple of a trial. -/
def trialKey (tr : Trial) : String × String × String × String × Option Nat :=
  (tr.page, tr.model, tr.format, tr.task.id, some tr.runIdx)

/-! ## Aggregator (`aggregate`)

`aggregate` buckets the records by the string key `model|format`; object
keys preserve insertion order, so the buckets form an association list
ordered by first occurrence.  Summation of a token or latency list that
contains an absent field gives NaN in JavaScript, which `Math.round` maps
to NaN; `none` models NaN throughout. -/

/-- One bucket of `agg`: model, format and the pushed scores, token counts
and latencies in record order. -/
structure Group where
  model : String
  format : String
  scores : List ℚ
  tokens : List (Option Nat)
  latencies : List (Option Nat)
deriving DecidableEq, Repr

/-- Grouping key of a record, `model|format` in the source. -/
def groupKey (r : TrialRecord) : String × String := (r.model, r.format)

/-- Push one record onto its bucket, creating the bucket at the end on
first occurrence of the key (JavaScript object-key insertion order). -/
def addRec : List ((String × String) × Group) → TrialRecord →
    List ((String × String) × Group)
  | [], r =>
    [((r.model, r.format),
      ⟨r.model, r.format, [r.score], [r.tokens], [r.latency]⟩)]
  | (k, g) :: rest, r =>
    if k = (r.model, r.format) then
      (k, { g with scores := g.scores ++ [r.score],
                   tokens := g.tokens ++ [r.tokens],
                   latencies := g.latencies ++ [r.latency] }) :: rest
    else
      (k, g) :: addRec rest r

/-- The `agg` object after the first loop of `aggregate`. -/
def groups (recs : List TrialRecord) : List ((String × String) × Group) :=
  recs.foldl addRec []

/-- JavaScript addition where one side may be NaN (an absent field summed
by `reduce`). -/
def jsAdd : Option ℚ → Option ℚ → Option ℚ
  | some a, some b => some (a + b)
  | _, _ => none

/-- Model of `list.reduce((a, b) => a + b, 0)` over values that may be NaN. -/
def jsSum (l : List (Option ℚ)) : Option ℚ := l.foldl jsAdd (some 0)

/-- One summary row: `accuracy` is the numeric value of the percentage
string `(mean*100).toFixed(1) + &percnt;`, and the token and latency
averages are `Math.round` results, `none` for NaN. -/
structure AggRow where
  model : String
  format : String
  accuracy : ℚ
  avgTokens : Option Int
  avgLatency : Option Int
deriving DecidableEq, Repr

/-- The `stats.push({...})` body: means of one bucket. -/
def statsOf (g : Group) : AggRow :=
  { model := g.model,
    format := g.format,
    accuracy := jsToFixed1 (g.scores.sum / (g.scores.length : ℚ) * 100),
    avgTokens :=
      (jsSum (g.tokens.map (fun o => o.map (fun n => (n : ℚ))))).map
        (fun s => round (s / (g.tokens.length : ℚ))),
    avgLatency :=
      (jsSum (g.latencies.map (fun o => o.map (fun n => (n : ℚ))))).map
        (fun s => round (s / (g.latencies.length : ℚ))) }

/-- Stable insertion of a row into a descending-by-accuracy list: the row
goes after every earlier row whose accuracy is greater than or equal to
its own. -/
def insertDesc (row : AggRow) : List AggRow → List AggRow
  | [] => [row]
  | r :: rest =>
    if r.accuracy < row.accuracy then row :: r :: rest
    else r :: insertDesc row rest

/-- Stable sort by descending accuracy.  `Array.prototype.sort` with the
comparator `(a, b) => parseFloat(b.accuracy) - parseFloat(a.accuracy)`
guarantees exactly a stable permutation that is descending in the parsed
accuracy, which is what this structural insertion sort produces (the
stable sorted permutation of a list is unique, so the unspecified engine
algorithm and this one agree). -/
def sortDesc : List AggRow → List AggRow
  | [] => []
  | r :: rest => insertDesc r (sortDesc rest)

/-- Model of `aggregate()`: bucket, take means, sort by descending accuracy. -/
def aggregate (recs : List TrialRecord) : List AggRow :=
  sortDesc ((groups recs).map (fun kg => statsOf kg.2))

/-! ## Specification-side definitions

These re-state parts of the specification in independent vocabulary
(finite sets instead of deduplicated lists, explicit filters instead of
the incremental bucket fold), to compare against the embedded code. -/

/-- The set of trimmed comma-separated tokens of a string, as a finite
set. -/
def tokenFinset (s : String) : Finset String :=
  ((jsSplit s ',').map jsTrim).toFinset

/-- The precision-recall rule exactly as the specification words it: the
token sets of an empty predicted (or truth) answer are taken to be empty,
so that an empty predicted answer yields precision 0 and an empty truth
yields recall 0. -/
def claimTokenList (s : String) : List String :=
  if s = "" then [] else jsSetList ((jsSplit s ',').map jsTrim)

/-- Specification wording of the `precision_recall` score (compare with
the `precision_recall` branch of `scoreResponse`). -/
def precisionRecallClaim (pred truth : String) : ℚ :=
  let predSet := claimTokenList (jsNorm pred)
  let truthSet := claimTokenList (jsNorm truth)
  let inter := predSet.filter (fun x => x ∈ truthSet)
  let precision : ℚ :=
    if predSet.length = 0 then 0 else (inter.length : ℚ) / (predSet.length : ℚ)
  let rcl : ℚ :=
    if truthSet.length = 0 then 0 else (inter.length : ℚ) / (truthSet.length : ℚ)
  if precision + rcl > 0 then 2 * precision * rcl / (precision + rcl) else 0

/-- The records of a group, selected directly by key. -/
def collect (recs : List TrialRecord) (k : String × String) : List TrialRecord :=
  recs.filter (fun r => decide (groupKey r = k))

/-- The bucket a key ends up with, built in one step from its records. -/
def mkGroup (k : String × String) (l : List TrialRecord) : Group :=
  ⟨k.1, k.2, l.map TrialRecord.score, l.map TrialRecord.tokens,
   l.map (fun r => r.latency)⟩

/-- The (model, format) pair of a summary row. -/
def rowKey (row : AggRow) : String × String := (row.model, row.format)

/-- The identity tuples of the full cross-product, in the enumeration
order of the loop nest. -/
def keyTuples (cfg : Config) : List (String × String × String × String × Option Nat) :=
  (trialList cfg).map trialKey

/-! ## Helper lemmas -/

/-- A string with no characters is the empty string. -/
theorem eq_empty_of_chars_eq_nil {s : String} (h : chars s = []) : s = "" :=
  String.ext h

/-- The empty pattern occurs in every haystack. -/
theorem includesChars_nil (hay : List Char) : includesChars hay [] = true := by
  induction hay with
  | nil => rfl
  | cons c t ih => simp [includesChars, ih, List.isPrefixOf]

/-- A nonempty pattern does not occur in the empty haystack. -/
theorem includesChars_empty_hay {pat : List Char} (h : pat ≠ []) :
    includesChars [] pat = false := by
  cases pat with
  | nil => exact absurd rfl h
  | cons c t => rfl

/-- Occurrence of the pattern is exactly a three-way decomposition of the
haystack around it. -/
theorem includesChars_iff (hay pat : List Char) :
    includesChars hay pat = true ↔ ∃ l r, hay = l ++ (pat ++ r) := by
  induction hay with
  | nil =>
    cases pat with
    | nil =>
      simp only [includesChars, List.isEmpty_nil, true_iff]
      exact ⟨[], [], rfl⟩
    | cons c t => simp [includesChars]
  | cons c t ih =>
    simp only [includesChars, Bool.or_eq_true, ih]
    constructor
    · rintro (hp | ⟨l, r, hl⟩)
      · rcases List.isPrefixOf_iff_prefix.mp hp with ⟨r, hr⟩
        exact ⟨[], r, by simp [hr.symm]⟩
      · exact ⟨c :: l, r, by simp [hl]⟩
    · rintro ⟨l, r, hl⟩
      cases l with
      | nil =>
        left
        exact List.isPrefixOf_iff_prefix.mpr ⟨r, by simpa using hl.symm⟩
      | cons x xs =>
        right
        simp only [List.cons_append, List.cons.injEq] at hl
        exact ⟨xs, r, hl.2⟩

/-- One step of the `jsSetList` fold. -/
theorem jsSetList_append_singleton {α : Type} [DecidableEq α] (l : List α) (x : α) :
    jsSetList (l ++ [x]) =
      if x ∈ jsSetList l then jsSetList l else jsSetList l ++ [x] := by
  simp [jsSetList, List.foldl_append]

/-- The function `jsSetList` keeps exactly the members of its input. -/
theorem mem_jsSetList {α : Type} [DecidableEq α] (x : α) (l : List α) :
    x ∈ jsSetList l ↔ x ∈ l := by
  induction l using List.reverseRecOn generalizing x with
  | nil => simp [jsSetList]
  | append_singleton l a ih =>
    rw [jsSetList_append_singleton]
    by_cases h : a ∈ jsSetList l
    · rw [if_pos h, ih]
      constructor
      · exact fun hx => List.mem_append_left _ hx
      · intro hx
        rcases List.mem_append.mp hx with hx | hx
        · exact hx
        · rw [List.mem_singleton.mp hx]
          exact (ih a).mp h
    · rw [if_neg h]
      simp [ih]

/-- The function `jsSetList` never repeats an element. -/
theorem jsSetList_nodup {α : Type} [DecidableEq α] (l : List α) :
    (jsSetList l).Nodup := by
  induction l using List.reverseRecOn with
  | nil => simp [jsSetList]
  | append_singleton l a ih =>
    rw [jsSetList_append_singleton]
    by_cases h : a ∈ jsSetList l
    · simpa [if_pos h] using ih
    · rw [if_neg h]
      refine List.Nodup.append ih (List.nodup_singleton a) ?_
      intro b hb hba
      rw [List.mem_singleton.mp hba] at hb
      exact h hb

/-- A registered model key makes `queryModel` return a value. -/
theorem queryModel_ok {modelKey : String} (h : registered modelKey = true)
    (outcome : DispatchOutcome) (latency : Nat) :
    queryModel modelKey outcome latency =
      .ok (match outcome with
           | .success text tokens => ⟨some text, tokens, latency, none⟩
           | .failure msg => ⟨none, 0, latency, some msg⟩) := by
  unfold queryModel
  rw [if_pos h]
  cases outcome <;> rfl

/-- An unregistered model key makes `queryModel` throw. -/
theorem queryModel_error {modelKey : String} (h : registered modelKey = false)
    (outcome : DispatchOutcome) (latency : Nat) :
    queryModel modelKey outcome latency =
      .error "TypeError: cannot destructure MODELS entry" := by
  unfold queryModel
  rw [if_neg (by simp [h])]

/-- The text_match branch of `scoreResponse`, isolated. -/
theorem scoreResponse_text_match (parsed : ParsedAnswer) (truth : String) :
    scoreResponse parsed truth "text_match" =
      (if jsNorm parsed.answer = jsNorm truth then (1 : ℚ)
       else if jsIncludes (jsNorm parsed.answer) (jsNorm truth)
              || jsIncludes (jsNorm truth) (jsNorm parsed.answer) then 1/2
       else 0) := by
  unfold scoreResponse
  rw [if_neg (by decide), if_pos rfl]

/-! ## Claim C2 -/

/-- C2: for every model identifier in the registry and every dispatch
outcome, `queryModel` returns a `ProviderReply` value and never propagates
a thrown error; when the dispatch failed, the reply carries the error
message, a null reply text, zero tokens and the measured latency; and in
every returned reply exactly one of reply text and error is populated. -/
theorem c2_queryModel_never_throws (modelKey : String)
    (h : registered modelKey = true) (outcome : DispatchOutcome) (latency : Nat) :
    ∃ reply, queryModel modelKey outcome latency = .ok reply
      ∧ (∀ msg, outcome = .failure msg → reply = ⟨none, 0, latency, some msg⟩)
      ∧ (reply.response.isSome ↔ reply.error = none) := by
  rw [queryModel_ok h]
  cases outcome with
  | success text tokens =>
    refine ⟨⟨some text, tokens, latency, none⟩, rfl, ?_, by simp⟩
    intro msg hc
    exact nomatch hc
  | failure msg =>
    refine ⟨⟨none, 0, latency, some msg⟩, rfl, ?_, by simp⟩
    intro m hm
    cases hm
    rfl

/-- Witness for C2 at the registered key gpt-4o with a failed dispatch. -/
theorem c2_witness :
    registered "gpt-4o" = true ∧
    (∃ reply, queryModel "gpt-4o" (.failure "boom") 7 = .ok reply
      ∧ (∀ msg, DispatchOutcome.failure "boom" = .failure msg →
          reply = ⟨none, 0, 7, some msg⟩)
      ∧ (reply.response.isSome ↔ reply.error = none)) :=
  ⟨by decide, c2_queryModel_never_throws "gpt-4o" (by decide) (.failure "boom") 7⟩

/-! ## Claim C9 -/

/-- C9: under the text_match rule (both inputs case-folded and trimmed)
the score is 1.0 exactly on equal normalized strings, 0.5 exactly when
they differ but one occurs inside the other as a contiguous substring,
0.0 exactly otherwise; and predicted cart against truth add to cart
scores 0.5. -/
theorem c9_text_match_characterization (parsed : ParsedAnswer) (truth : String) :
    (scoreResponse parsed truth "text_match" = 1 ↔
      jsNorm parsed.answer = jsNorm truth)
    ∧ (scoreResponse parsed truth "text_match" = 1/2 ↔
        (jsNorm parsed.answer ≠ jsNorm truth ∧
          ((∃ l r, chars (jsNorm parsed.answer) = l ++ (chars (jsNorm truth) ++ r)) ∨
           (∃ l r, chars (jsNorm truth) = l ++ (chars (jsNorm parsed.answer) ++ r)))))
    ∧ (scoreResponse parsed truth "text_match" = 0 ↔
        (jsNorm parsed.answer ≠ jsNorm truth ∧
          ¬((∃ l r, chars (jsNorm parsed.answer) = l ++ (chars (jsNorm truth) ++ r)) ∨
            (∃ l r, chars (jsNorm truth) = l ++ (chars (jsNorm parsed.answer) ++ r)))))
    ∧ scoreResponse ⟨"cart", 0, ""⟩ "add to cart" "text_match" = 1/2 := by
  have hsub : (jsIncludes (jsNorm parsed.answer) (jsNorm truth)
        || jsIncludes (jsNorm truth) (jsNorm parsed.answer)) = true ↔
      ((∃ l r, chars (jsNorm parsed.answer) = l ++ (chars (jsNorm truth) ++ r)) ∨
       (∃ l r, chars (jsNorm truth) = l ++ (chars (jsNorm parsed.answer) ++ r))) := by
    simp only [jsIncludes, Bool.or_eq_true, includesChars_iff]
  refine ⟨?_, ?_, ?_, by decide⟩
  · rw [scoreResponse_text_match]
    by_cases h1 : jsNorm parsed.answer = jsNorm truth
    · simp [h1]
    · rw [if_neg h1]
      simp only [iff_false, h1]
      split <;> norm_num
  · rw [scoreResponse_text_match]
    by_cases h1 : jsNorm parsed.answer = jsNorm truth
    · rw [if_pos h1]
      simp [h1]
    · rw [if_neg h1, ← hsub]
      split <;> simp_all
  · rw [scoreResponse_text_match]
    by_cases h1 : jsNorm parsed.answer = jsNorm truth
    · rw [if_pos h1]
      simp [h1]
    · rw [if_neg h1, ← hsub]
      split <;> simp_all

/-! ## Claim C10 -/

/-- C10 counterexample: the ground-truth string consisting of one space is
a non-empty string, yet an empty predicted answer scores 1.0 against it
(both normalize to the empty string), not the 0.5 the claim asserts. -/
theorem c10_counterexample :
    scoreResponse ⟨"", 0, ""⟩ " " "text_match" = 1 ∧ (1 : ℚ) ≠ 1/2 :=
  ⟨by decide, by norm_num⟩

/-- C10 (amended): for every ground-truth string that is still non-empty
after normalization (case-folding and trimming), a predicted answer that
normalizes to the empty string scores 0.5 under text_match, because the
empty string is a substring of every string. -/
theorem c10_empty_answer_half (parsed : ParsedAnswer) (truth : String)
    (h1 : jsNorm parsed.answer = "") (h2 : jsNorm truth ≠ "") :
    scoreResponse parsed truth "text_match" = 1/2 := by
  rw [scoreResponse_text_match, h1]
  have hne : "" ≠ jsNorm truth := fun hc => h2 hc.symm
  rw [if_neg hne]
  have hinc : jsIncludes (jsNorm truth) "" = true := by
    simp only [jsIncludes]
    exact includesChars_nil _
  rw [hinc]
  simp

/-- Witness for C10 at a whitespace-only predicted answer and the truth
add to cart. -/
theorem c10_witness :
    jsNorm "  " = "" ∧ jsNorm "add to cart" ≠ "" ∧
    scoreResponse ⟨"  ", 0, ""⟩ "add to cart" "text_match" = 1/2 :=
  ⟨by decide, by decide,
   c10_empty_answer_half ⟨"  ", 0, ""⟩ "add to cart" (by decide) (by decide)⟩

/-! ## Claim C7 -/

/-- A line that does not start with the ANSWER marker leaves the answer
field unchanged. -/
theorem parseStep_answer (st : ParsedAnswer) (l : String)
    (h : jsStartsWith l "ANSWER:" = false) :
    (parseStep st l).answer = st.answer := by
  unfold parseStep
  rw [if_neg (by simp [h])]
  split
  · rfl
  · split <;> rfl

/-- A line that does not start with the EVIDENCE marker leaves the
evidence field unchanged. -/
theorem parseStep_evidence (st : ParsedAnswer) (l : String)
    (h : jsStartsWith l "EVIDENCE:" = false) :
    (parseStep st l).evidence = st.evidence := by
  unfold parseStep
  split
  · rfl
  · split
    · rfl
    · rw [if_neg (by simp [h])]

/-- A line whose CONFIDENCE remainder does not parse keeps the confidence
at zero. -/
theorem parseStep_confidence_zero (st : ParsedAnswer) (l : String)
    (h : jsStartsWith l "CONFIDENCE:" = true →
      parseIntJs (jsTrim (jsDrop l 11)) = none)
    (h0 : st.confidence = 0) : (parseStep st l).confidence = 0 := by
  unfold parseStep
  split
  · exact h0
  · split
    · next h2 =>
      rw [h h2]
    · split
      · exact h0
      · exact h0

/-- Folding over lines none of which carries the ANSWER marker keeps the
initial answer. -/
theorem foldl_parseStep_answer (lines : List String) (st : ParsedAnswer)
    (h : ∀ l ∈ lines, jsStartsWith l "ANSWER:" = false) :
    (lines.foldl parseStep st).answer = st.answer := by
  induction lines generalizing st with
  | nil => rfl
  | cons l ls ih =>
    rw [List.foldl_cons, ih _ (fun x hx => h x (List.mem_cons_of_mem _ hx))]
    exact parseStep_answer st l (h l (List.mem_cons_self _ _))

/-- Folding over lines none of which carries the EVIDENCE marker keeps the
initial evidence. -/
theorem foldl_parseStep_evidence (lines : List String) (st : ParsedAnswer)
    (h : ∀ l ∈ lines, jsStartsWith l "EVIDENCE:" = false) :
    (lines.foldl parseStep st).evidence = st.evidence := by
  induction lines generalizing st with
  | nil => rfl
  | cons l ls ih =>
    rw [List.foldl_cons, ih _ (fun x hx => h x (List.mem_cons_of_mem _ hx))]
    exact parseStep_evidence st l (h l (List.mem_cons_self _ _))

/-- Folding over lines whose CONFIDENCE remainders never parse keeps the
confidence at zero. -/
theorem foldl_parseStep_confidence (lines : List String) (st : ParsedAnswer)
    (h : ∀ l ∈ lines, jsStartsWith l "CONFIDENCE:" = true →
      parseIntJs (jsTrim (jsDrop l 11)) = none)
    (h0 : st.confidence = 0) :
    (lines.foldl parseStep st).confidence = 0 := by
  induction lines generalizing st with
  | nil => exact h0
  | cons l ls ih =>
    rw [List.foldl_cons]
    exact ih _ (fun x hx => h x (List.mem_cons_of_mem _ hx))
      (parseStep_confidence_zero st l (h l (List.mem_cons_self _ _)) h0)

/-- C7: `parseResponse` is total and degrades to defaults: when no line
starts with the ANSWER marker the answer is the empty string; when every
line starting with CONFIDENCE has an unparsable integer remainder — in
particular when no such line exists — the confidence is 0; when no line
starts with EVIDENCE the evidence is the empty string. -/
theorem c7_parser_tolerant (raw : String) :
    ((∀ l ∈ jsSplit raw '\n', jsStartsWith l "ANSWER:" = false) →
      (parseResponse raw).answer = "")
    ∧ ((∀ l ∈ jsSplit raw '\n', jsStartsWith l "CONFIDENCE:" = true →
          parseIntJs (jsTrim (jsDrop l 11)) = none) →
      (parseResponse raw).confidence = 0)
    ∧ ((∀ l ∈ jsSplit raw '\n', jsStartsWith l "EVIDENCE:" = false) →
      (parseResponse raw).evidence = "") :=
  ⟨fun h => foldl_parseStep_answer _ _ h,
   fun h => foldl_parseStep_confidence _ _ h rfl,
   fun h => foldl_parseStep_evidence _ _ h⟩

/-- Witness for C7: a reply with no ANSWER line, no EVIDENCE line and a
CONFIDENCE line whose remainder is not an integer parses to all three
defaults. -/
theorem c7_witness :
    (parseResponse "hello\nCONFIDENCE: high").answer = "" ∧
    (parseResponse "hello\nCONFIDENCE: high").confidence = 0 ∧
    (parseResponse "hello\nCONFIDENCE: high").evidence = "" :=
  ⟨(c7_parser_tolerant "hello\nCONFIDENCE: high").1 (by decide),
   (c7_parser_tolerant "hello\nCONFIDENCE: high").2.1 (by decide),
   (c7_parser_tolerant "hello\nCONFIDENCE: high").2.2 (by decide)⟩

/-! ## Claim C8 -/

/-- NaN on the left of strict equality. -/
theorem jsNumEq_none_left (b : Option ℚ) : jsNumEq none b = false := by
  cases b <;> rfl

/-- NaN on the right of strict equality. -/
theorem jsNumEq_some_none (x : ℚ) : jsNumEq (some x) none = false := rfl

/-- Strict equality of two parsed numbers. -/
theorem jsNumEq_some_some (x y : ℚ) : jsNumEq (some x) (some y) = (x == y) := rfl

/-- The numeric branch of `scoreResponse`, isolated. -/
theorem scoreResponse_numeric (parsed : ParsedAnswer) (truth : String) :
    scoreResponse parsed truth "numeric" =
      (if jsNumEq (parseFloatJs (jsNorm parsed.answer))
            (parseFloatJs (jsNorm truth)) then (1 : ℚ) else 0) := by
  unfold scoreResponse
  rw [if_neg (by decide), if_neg (by decide), if_pos rfl]

/-- C8: under the numeric rule the score is 1.0 exactly when both strings
parse to the same number, the score is always 1.0 or 0.0, a malformed
predicted string (parsing to the NaN sentinel) always scores 0.0, and
predicted 3.0 against truth 3 scores 1.0. -/
theorem c8_numeric_exact (parsed : ParsedAnswer) (truth : String) :
    (scoreResponse parsed truth "numeric" = 1 ↔
      ∃ x, parseFloatJs (jsNorm parsed.answer) = some x ∧
           parseFloatJs (jsNorm truth) = some x)
    ∧ (scoreResponse parsed truth "numeric" = 1 ∨
       scoreResponse parsed truth "numeric" = 0)
    ∧ (parseFloatJs (jsNorm parsed.answer) = none →
       scoreResponse parsed truth "numeric" = 0)
    ∧ scoreResponse ⟨"3.0", 0, ""⟩ "3" "numeric" = 1 := by
  refine ⟨?_, ?_, ?_, by decide⟩
  · rw [scoreResponse_numeric]
    cases hp : parseFloatJs (jsNorm parsed.answer) with
    | none =>
      rw [jsNumEq_none_left, if_neg (by simp)]
      constructor
      · intro hc
        exact absurd hc (by norm_num)
      · rintro ⟨x, hx, -⟩
        exact absurd hx (by simp)
    | some x =>
      cases ht : parseFloatJs (jsNorm truth) with
      | none =>
        rw [jsNumEq_some_none, if_neg (by simp)]
        constructor
        · intro hc
          exact absurd hc (by norm_num)
        · rintro ⟨y, -, hy⟩
          exact absurd hy (by simp)
      | some y =>
        rw [jsNumEq_some_some]
        by_cases hxy : x = y
        · subst hxy
          rw [if_pos (by simp)]
          exact ⟨fun _ => ⟨x, rfl, rfl⟩, fun _ => rfl⟩
        · rw [if_neg (by simp [hxy])]
          constructor
          · intro hc
            exact absurd hc (by norm_num)
          · rintro ⟨z, hz1, hz2⟩
            exact (hxy ((Option.some_inj.mp hz1).trans
              (Option.some_inj.mp hz2).symm)).elim
  · rw [scoreResponse_numeric]
    split
    · exact Or.inl rfl
    · exact Or.inr rfl
  · intro h
    rw [scoreResponse_numeric, h, jsNumEq_none_left, if_neg (by simp)]

/-- Witness for C8: a malformed predicted number scores 0. -/
theorem c8_witness :
    parseFloatJs (jsNorm "abc") = none ∧
    scoreResponse ⟨"abc", 0, ""⟩ "3" "numeric" = 0 :=
  ⟨by decide, (c8_numeric_exact ⟨"abc", 0, ""⟩ "3").2.2.1 (by decide)⟩

/-! ## Claim C4 -/

/-- C4 counterexample: a failed dispatch (measured latency 9, zero tokens
in the reply) produces the early-return record of `runSingleTest`, which
omits the token count and the latency, contradicting the claim that the
error record still carries them. -/
theorem c4_counterexample :
    (runSingleTest (fun _ _ => (.failure "boom", 9)) (fun _ _ => "ctx")
        (fun _ => some "3") "gpt-4o" "sifr" "p" ⟨"t1", "q", "numeric"⟩).2 =
      .ok { model := "gpt-4o", format := "sifr", pageId := "p",
            taskId := "t1", score := 0, error := some "boom",
            response := none, confidence := none, evidence := none,
            expected := none, tokens := none, latency := none,
            runIdx := none } := rfl

/-- A dispatch failure with a non-empty caught message takes the truthy
early-return branch and yields the error record. -/
theorem runSingleTest_failure_record (env : Env)
    (pt : String → String → String) (gtp : String → Option String)
    (mk fmt pid : String) (task : Task) (msg : String) (lat : Nat)
    (hreg : registered mk = true) (hne : msg ≠ "")
    (henv : env mk (buildPrompt task (pt pid fmt) fmt) = (.failure msg, lat)) :
    (runSingleTest env pt gtp mk fmt pid task).2 =
      .ok { model := mk, format := fmt, pageId := pid, taskId := task.id,
            score := 0, error := some msg, response := none,
            confidence := none, evidence := none, expected := none,
            tokens := none, latency := none, runIdx := none } := by
  simp only [runSingleTest]
  rw [henv, queryModel_ok hreg]
  simp [jsTruthy, hne]

/-- A dispatch failure whose caught message is the empty string is falsy
under `if (error)`: the code falls through and throws while splitting the
null reply text, so the trial delivers no record. -/
theorem runSingleTest_failure_empty_throws (env : Env)
    (pt : String → String → String) (gtp : String → Option String)
    (mk fmt pid : String) (task : Task) (lat : Nat)
    (hreg : registered mk = true)
    (henv : env mk (buildPrompt task (pt pid fmt) fmt) = (.failure "", lat)) :
    (runSingleTest env pt gtp mk fmt pid task).2 =
      .error "TypeError: cannot split null" := by
  simp only [runSingleTest]
  rw [henv, queryModel_ok hreg]
  rfl

/-- C4 (amended): for every trial whose dispatch fails with a non-empty
error description, `runSingleTest` returns a record with score 0 and the
error description attached and skips parsing and scoring entirely (no
parsed fields, no expected answer); unlike successful records, the error
record carries neither the token count nor the measured latency.  A
dispatch failure whose caught message is the empty string is falsy under
the source's `if (error)` test: the trial then throws while parsing the
null reply instead of recording anything. -/
theorem c4_error_trial_record (env : Env) (pt : String → String → String)
    (gt : String → Option String) (mk fmt pid : String) (task : Task)
    (msg : String) (lat : Nat)
    (hreg : registered mk = true)
    (henv : env mk (buildPrompt task (pt pid fmt) fmt) = (.failure msg, lat)) :
    (msg ≠ "" →
      (runSingleTest env pt gt mk fmt pid task).2 =
        .ok { model := mk, format := fmt, pageId := pid, taskId := task.id,
              score := 0, error := some msg, response := none,
              confidence := none, evidence := none, expected := none,
              tokens := none, latency := none, runIdx := none })
    ∧ (msg = "" →
      (runSingleTest env pt gt mk fmt pid task).2 =
        .error "TypeError: cannot split null") :=
  ⟨fun hne =>
    runSingleTest_failure_record env pt gt mk fmt pid task msg lat hreg hne henv,
   fun hz =>
    runSingleTest_failure_empty_throws env pt gt mk fmt pid task lat hreg
      (by rw [← hz]; exact henv)⟩

/-! ## Claim C6 -/

/-- Stable insertion permutes pushing on the front. -/
theorem insertDesc_perm (row : AggRow) (l : List AggRow) :
    (insertDesc row l).Perm (row :: l) := by
  induction l with
  | nil => exact List.Perm.refl _
  | cons r rest ih =>
    unfold insertDesc
    by_cases h : r.accuracy < row.accuracy
    · rw [if_pos h]
    · rw [if_neg h]
      exact (List.Perm.cons r ih).trans (List.Perm.swap row r rest)

/-- Stable insertion sort is a permutation. -/
theorem sortDesc_perm (l : List AggRow) : (sortDesc l).Perm l := by
  induction l with
  | nil => exact List.Perm.refl _
  | cons r rest ih =>
    exact (insertDesc_perm r (sortDesc rest)).trans (List.Perm.cons r ih)

/-- Inserting into a descending list keeps it descending. -/
theorem insertDesc_pairwise {row : AggRow} {l : List AggRow}
    (h : l.Pairwise fun a b => b.accuracy ≤ a.accuracy) :
    (insertDesc row l).Pairwise fun a b => b.accuracy ≤ a.accuracy := by
  induction l with
  | nil => simp [insertDesc]
  | cons r rest ih =>
    rcases List.pairwise_cons.mp h with ⟨hr, hrest⟩
    unfold insertDesc
    by_cases hlt : r.accuracy < row.accuracy
    · rw [if_pos hlt]
      refine List.pairwise_cons.mpr ⟨?_, h⟩
      intro b hb
      rcases List.mem_cons.mp hb with heq | hbm
      · rw [heq]
        exact le_of_lt hlt
      · exact le_trans (hr b hbm) (le_of_lt hlt)
    · rw [if_neg hlt]
      refine List.pairwise_cons.mpr ⟨?_, ih hrest⟩
      intro b hb
      rcases List.mem_cons.mp ((insertDesc_perm row rest).mem_iff.mp hb) with
        heq | hbm
      · rw [heq]
        exact not_lt.mp hlt
      · exact hr b hbm

/-- Insertion sort by descending accuracy delivers a descending list. -/
theorem sortDesc_pairwise (l : List AggRow) :
    (sortDesc l).Pairwise fun a b => b.accuracy ≤ a.accuracy := by
  induction l with
  | nil => simp [sortDesc]
  | cons r rest ih => exact insertDesc_pairwise ih

/-- Appending one record extends its group selection and no other. -/
theorem collect_append_singleton (recs : List TrialRecord) (r : TrialRecord)
    (k : String × String) :
    collect (recs ++ [r]) k =
      collect recs k ++ (if groupKey r = k then [r] else []) := by
  unfold collect
  rw [List.filter_append]
  congr 1
  simp only [List.filter_singleton, decide_eq_true_eq]
  split <;> simp_all

/-- Pushing a record with a fresh key appends its bucket at the end. -/
theorem addRec_not_mem (K : List (String × String))
    (G : (String × String) → Group) (r : TrialRecord)
    (h : (r.model, r.format) ∉ K) :
    addRec (K.map fun k => (k, G k)) r =
      (K.map fun k => (k, G k)) ++
        [((r.model, r.format),
          ⟨r.model, r.format, [r.score], [r.tokens], [r.latency]⟩)] := by
  induction K with
  | nil => rfl
  | cons k0 rest ih =>
    rw [List.map_cons]
    simp only [addRec]
    rw [if_neg (fun hc => h (by rw [hc]; exact List.mem_cons_self _ _))]
    rw [ih (fun hc => h (List.mem_cons_of_mem _ hc))]
    rfl

/-- Pushing a record with a known key updates exactly its bucket,
in place. -/
theorem addRec_mem (K : List (String × String))
    (G : (String × String) → Group) (r : TrialRecord)
    (hnd : K.Nodup) (h : (r.model, r.format) ∈ K) :
    addRec (K.map fun k => (k, G k)) r =
      K.map fun k =>
        (k, if k = (r.model, r.format) then
              { G k with scores := (G k).scores ++ [r.score],
                         tokens := (G k).tokens ++ [r.tokens],
                         latencies := (G k).latencies ++ [r.latency] }
            else G k) := by
  induction K with
  | nil => cases h
  | cons k0 rest ih =>
    rcases List.nodup_cons.mp hnd with ⟨hk0, hrest⟩
    rw [List.map_cons, List.map_cons]
    simp only [addRec]
    by_cases hek : k0 = (r.model, r.format)
    · rw [if_pos hek, if_pos hek]
      congr 1
      apply List.map_congr_left
      intro k hk
      rw [if_neg (fun hc => hk0 (by rw [hek, ← hc]; exact hk))]
    · rw [if_neg hek, if_neg hek]
      congr 1
      rcases List.mem_cons.mp h with heq | hmem
      · exact absurd heq.symm hek
      · exact ih hrest hmem

/-- The bucket fold of `aggregate` produces, in first-occurrence key
order, exactly the filtered per-key record lists. -/
theorem groups_eq (recs : List TrialRecord) :
    groups recs = (jsSetList (recs.map groupKey)).map
      (fun k => (k, mkGroup k (collect recs k))) := by
  induction recs using List.reverseRecOn with
  | nil => rfl
  | append_singleton recs r ih =>
    have hstep : groups (recs ++ [r]) = addRec (groups recs) r := by
      simp [groups, List.foldl_append]
    rw [hstep, ih, List.map_append, List.map_singleton,
      jsSetList_append_singleton]
    by_cases hmem : groupKey r ∈ jsSetList (recs.map groupKey)
    · rw [if_pos (by simpa using hmem)]
      rw [addRec_mem _ _ _ (jsSetList_nodup _) hmem]
      apply List.map_congr_left
      intro k hk
      rw [collect_append_singleton]
      by_cases hkk : k = (r.model, r.format)
      · rw [if_pos hkk, if_pos (show groupKey r = k from hkk.symm)]
        simp [mkGroup]
      · rw [if_neg hkk,
          if_neg (show ¬ groupKey r = k from fun hc => hkk hc.symm),
          List.append_nil]
    · rw [if_neg (by simpa using hmem)]
      rw [addRec_not_mem _ _ _ hmem, List.map_append]
      congr 1
      · apply List.map_congr_left
        intro k hk
        rw [collect_append_singleton,
          if_neg (show ¬ groupKey r = k from
            fun hc => hmem (by rw [hc]; exact hk)),
          List.append_nil]
      · rw [List.map_singleton, collect_append_singleton, if_pos rfl]
        have hempty : collect recs (groupKey r) = [] := by
          apply List.filter_eq_nil_iff.mpr
          intro a ha
          simp only [decide_eq_true_eq]
          intro hc
          exact hmem ((mem_jsSetList _ _).mpr
            (List.mem_map.mpr ⟨a, ha, hc⟩))
        rw [hempty]
        rfl

/-- C6 counterexample: a sequence holding one error record (its token and
latency fields absent).  The aggregate row's token and latency averages
are the NaN sentinel, not integers: the row does not carry a mean token
count rounded to the nearest integer. -/
theorem c6_counterexample :
    aggregate [⟨"m", "f", "p", "t", 0, some "boom", none, none, none, none,
        none, none, some 1⟩] =
      [{ model := "m", format := "f", accuracy := 0, avgTokens := none,
         avgLatency := none }] := by decide

/-- C6 (amended): the aggregate rows are sorted by descending accuracy
(the displayed one-decimal percentage of the group mean score); there is
exactly one row per distinct (model, format) pair of the record sequence;
and every row carries the statistics of its group computed over exactly
the records of that pair — the mean score as a one-decimal percentage,
and the token and latency means rounded to the nearest integer when every
record of the group carries them, the NaN sentinel otherwise. -/
theorem c6_aggregate_rows (recs : List TrialRecord) :
    ((aggregate recs).Pairwise fun a b => b.accuracy ≤ a.accuracy)
    ∧ ((aggregate recs).map rowKey).Perm (jsSetList (recs.map groupKey))
    ∧ (∀ row ∈ aggregate recs,
        row = statsOf (mkGroup (rowKey row) (collect recs (rowKey row)))) := by
  have hrowkey : ∀ k l, rowKey (statsOf (mkGroup k l)) = k := by
    intro k l
    simp [rowKey, statsOf, mkGroup]
  refine ⟨sortDesc_pairwise _, ?_, ?_⟩
  · have hperm := (sortDesc_perm
      ((groups recs).map (fun kg => statsOf kg.2))).map rowKey
    refine hperm.trans ?_
    rw [groups_eq, List.map_map, List.map_map]
    have hK : List.map ((rowKey ∘ fun kg => statsOf kg.2) ∘
        fun k => (k, mkGroup k (collect recs k)))
        (jsSetList (List.map groupKey recs)) =
        jsSetList (List.map groupKey recs) := by
      conv_rhs => rw [← List.map_id (jsSetList (List.map groupKey recs))]
      exact List.map_congr_left (fun k _ => hrowkey k (collect recs k))
    rw [hK]
  · intro row hrow
    have hmem : row ∈ (groups recs).map (fun kg => statsOf kg.2) :=
      (sortDesc_perm _).mem_iff.mp hrow
    rw [groups_eq, List.map_map] at hmem
    rcases List.mem_map.mp hmem with ⟨k, hk, hrk⟩
    have hkey : rowKey row = k := by
      rw [← hrk]
      exact hrowkey k (collect recs k)
    rw [hkey, ← hrk]
    rfl

/-- Witness for C6 at a two-group sequence: each row's statistics over
its own records, with one row per pair, sorted descending. -/
theorem c6_witness :
    ((aggregate [⟨"m", "f", "p", "t", 1/2, none, some "a", some 0, some "",
          some "a", some 10, some 100, some 1⟩,
        ⟨"m2", "f", "p", "t", 1, none, some "a", some 0, some "", some "a",
          some 20, some 50, some 1⟩]).Pairwise
      fun a b => b.accuracy ≤ a.accuracy)
    ∧ (⟨"m2", "f", 100, some 20, some 50⟩ : AggRow) =
        statsOf (mkGroup (rowKey (⟨"m2", "f", 100, some 20, some 50⟩ : AggRow))
          (collect [⟨"m", "f", "p", "t", 1/2, none, some "a", some 0, some "",
              some "a", some 10, some 100, some 1⟩,
            ⟨"m2", "f", "p", "t", 1, none, some "a", some 0, some "", some "a",
              some 20, some 50, some 1⟩]
            (rowKey (⟨"m2", "f", 100, some 20, some 50⟩ : AggRow)))) :=
  ⟨(c6_aggregate_rows _).1,
   (c6_aggregate_rows _).2.2 ⟨"m2", "f", 100, some 20, some 50⟩ (by decide)⟩

/-! ## Claim C1 -/

/-- A flat map whose pieces all have the same length. -/
theorem length_flatMap_const {α β : Type} (l : List α) (f : α → List β)
    (k : Nat) (h : ∀ a ∈ l, (f a).length = k) :
    (l.flatMap f).length = l.length * k := by
  induction l with
  | nil => simp
  | cons a tl ih =>
    rw [List.flatMap_cons, List.length_append, h a (List.mem_cons_self _ _),
      ih (fun x hx => h x (List.mem_cons_of_mem _ hx)), List.length_cons]
    ring

/-- A flat map over distinct seeds with internally distinct and mutually
disjoint pieces has no duplicates. -/
theorem nodup_flatMap_of {α β : Type} {l : List α} {f : α → List β}
    (hl : l.Nodup) (hf : ∀ a ∈ l, (f a).Nodup)
    (hdisj : ∀ a ∈ l, ∀ b ∈ l, a ≠ b → ∀ x ∈ f a, x ∉ f b) :
    (l.flatMap f).Nodup := by
  induction l with
  | nil => simp
  | cons a tl ih =>
    rw [List.flatMap_cons]
    rcases List.nodup_cons.mp hl with ⟨ha, htl⟩
    refine List.Nodup.append (hf a (List.mem_cons_self _ _))
      (ih htl (fun x hx => hf x (List.mem_cons_of_mem _ hx))
        (fun x hx y hy hxy =>
          hdisj x (List.mem_cons_of_mem _ hx) y (List.mem_cons_of_mem _ hy) hxy))
      ?_
    intro x hx hx2
    rcases List.mem_flatMap.mp hx2 with ⟨b, hb, hxb⟩
    exact hdisj a (List.mem_cons_self _ _) b (List.mem_cons_of_mem _ hb)
      (fun hab => ha (by rw [hab]; exact hb)) x hx hxb

/-- The key tuples of the cross-product, written out. -/
theorem keyTuples_eq (cfg : Config) :
    keyTuples cfg =
      cfg.pages.flatMap fun p => cfg.models.flatMap fun m =>
        cfg.formats.flatMap fun f => cfg.tasks.flatMap fun t =>
          (List.range cfg.runs).map fun r => (p, m, f, t.id, some (r + 1)) := by
  unfold keyTuples trialList
  simp only [List.map_flatMap, List.map_map]
  rfl

/-- The length of the trial cross-product is the product of the dimension
sizes. -/
theorem trialList_length (cfg : Config) :
    (trialList cfg).length =
      cfg.pages.length * cfg.models.length * cfg.formats.length *
        cfg.tasks.length * cfg.runs := by
  have h4 : ∀ (p m f : String) (t : Task),
      ((List.range cfg.runs).map
        (fun r => (⟨p, m, f, t, r + 1⟩ : Trial))).length = cfg.runs := by
    intro p m f t
    rw [List.length_map, List.length_range]
  have h3 : ∀ (p m f : String),
      (cfg.tasks.flatMap fun t => (List.range cfg.runs).map
        fun r => (⟨p, m, f, t, r + 1⟩ : Trial)).length =
      cfg.tasks.length * cfg.runs :=
    fun p m f => length_flatMap_const _ _ _ (fun t _ => h4 p m f t)
  have h2 : ∀ (p m : String),
      (cfg.formats.flatMap fun f => cfg.tasks.flatMap fun t =>
        (List.range cfg.runs).map
          fun r => (⟨p, m, f, t, r + 1⟩ : Trial)).length =
      cfg.formats.length * (cfg.tasks.length * cfg.runs) :=
    fun p m => length_flatMap_const _ _ _ (fun f _ => h3 p m f)
  have h1 : ∀ p : String,
      (cfg.models.flatMap fun m => cfg.formats.flatMap fun f =>
        cfg.tasks.flatMap fun t => (List.range cfg.runs).map
          fun r => (⟨p, m, f, t, r + 1⟩ : Trial)).length =
      cfg.models.length * (cfg.formats.length * (cfg.tasks.length * cfg.runs)) :=
    fun p => length_flatMap_const _ _ _ (fun m _ => h2 p m)
  have h0 := length_flatMap_const _ _ _ (fun p (_ : p ∈ cfg.pages) => h1 p)
  rw [trialList, h0]
  ring

/-- The components of a member of the trial cross-product come from the
configuration lists. -/
theorem mem_trialList_components {cfg : Config} {tr : Trial}
    (h : tr ∈ trialList cfg) :
    tr.page ∈ cfg.pages ∧ tr.model ∈ cfg.models ∧ tr.format ∈ cfg.formats ∧
      tr.task ∈ cfg.tasks := by
  simp only [trialList, List.mem_flatMap, List.mem_map, List.mem_range] at h
  rcases h with ⟨p, hp, m, hm, f, hf, t, ht, r, hr, rfl⟩
  exact ⟨hp, hm, hf, ht⟩

/-- Every in-range tuple occurs among the key tuples. -/
theorem mem_keyTuples {cfg : Config} {p m f tid : String} {n : Nat}
    (hp : p ∈ cfg.pages) (hm : m ∈ cfg.models) (hf : f ∈ cfg.formats)
    (ht : ∃ t ∈ cfg.tasks, t.id = tid) (h1 : 1 ≤ n) (h2 : n ≤ cfg.runs) :
    (p, m, f, tid, some n) ∈ keyTuples cfg := by
  rw [keyTuples_eq]
  rcases ht with ⟨t, htm, rfl⟩
  simp only [List.mem_flatMap, List.mem_map, List.mem_range]
  exact ⟨p, hp, m, hm, f, hf, t, htm, n - 1, by omega,
    by rw [Nat.sub_add_cancel h1]⟩

/-- With all model and task ids distinct the key tuples are distinct. -/
theorem keyTuples_nodup (cfg : Config) (hnp : cfg.pages.Nodup)
    (hnm : cfg.models.Nodup) (hnf : cfg.formats.Nodup)
    (hnt : (cfg.tasks.map Task.id).Nodup) :
    (keyTuples cfg).Nodup := by
  have hid : ∀ x ∈ cfg.tasks, ∀ y ∈ cfg.tasks, x.id = y.id → x = y :=
    List.inj_on_of_nodup_map hnt
  rw [keyTuples_eq]
  refine nodup_flatMap_of hnp ?_ ?_
  · intro p hp
    refine nodup_flatMap_of hnm ?_ ?_
    · intro m hm
      refine nodup_flatMap_of hnf ?_ ?_
      · intro f hf
        refine nodup_flatMap_of (List.Nodup.of_map _ hnt) ?_ ?_
        · intro t ht
          refine List.Nodup.map ?_ (List.nodup_range _)
          intro x y hxy
          simpa using hxy
        · intro t ht u hu htu x hx hx2
          simp only [List.mem_map, List.mem_range] at hx hx2
          rcases hx with ⟨r, hr, rfl⟩
          rcases hx2 with ⟨s, hs, heq⟩
          have : u.id = t.id := by
            simpa using congrArg (fun q => q.2.2.2.1) heq
          exact htu (hid t ht u hu this.symm)
      · intro f hf g hg hfg x hx hx2
        simp only [List.mem_flatMap, List.mem_map, List.mem_range] at hx hx2
        rcases hx with ⟨t, ht, r, hr, rfl⟩
        rcases hx2 with ⟨u, hu, s, hs, heq⟩
        have hcomp : g = f := by simpa using congrArg (fun q => q.2.2.1) heq
        exact hfg hcomp.symm
    · intro m hm m2 hm2 hmm x hx hx2
      simp only [List.mem_flatMap, List.mem_map, List.mem_range] at hx hx2
      rcases hx with ⟨f, hf, t, ht, r, hr, rfl⟩
      rcases hx2 with ⟨f2, hf2, u, hu, s, hs, heq⟩
      have hcomp : m2 = m := by simpa using congrArg (fun q => q.2.1) heq
      exact hmm hcomp.symm
  · intro p hp p2 hp2 hpp x hx hx2
    simp only [List.mem_flatMap, List.mem_map, List.mem_range] at hx hx2
    rcases hx with ⟨m, hm, f, hf, t, ht, r, hr, rfl⟩
    rcases hx2 with ⟨m2, hm2, f2, hf2, u, hu, s, hs, heq⟩
    have hcomp : p2 = p := by simpa using congrArg (fun q => q.1) heq
    exact hpp hcomp.symm

/-- A registered model, a present ground-truth entry and a dispatch that
does not fail with an empty message make a trial succeed with the
identity fields of the trial. -/
theorem runSingleTest_ok_fields (env : Env) (pt : String → String → String)
    (gtp : String → Option String) (mk fmt pid : String) (task : Task)
    (hreg : registered mk = true) (hgt : (gtp task.id).isSome = true)
    (hmsg : ∀ msg, (env mk (buildPrompt task (pt pid fmt) fmt)).1 =
      .failure msg → msg ≠ "") :
    ∃ rec, (runSingleTest env pt gtp mk fmt pid task).2 = .ok rec
      ∧ rec.model = mk ∧ rec.format = fmt ∧ rec.pageId = pid
      ∧ rec.taskId = task.id := by
  cases houtcome : (env mk (buildPrompt task (pt pid fmt) fmt)).1 with
  | success text tokens =>
    simp only [runSingleTest]
    rw [houtcome, queryModel_ok hreg]
    rcases Option.isSome_iff_exists.mp hgt with ⟨ans, hans⟩
    rw [hans]
    exact ⟨_, rfl, rfl, rfl, rfl, rfl⟩
  | failure msg =>
    have hne : msg ≠ "" := hmsg msg houtcome
    have henv : env mk (buildPrompt task (pt pid fmt) fmt) =
        (DispatchOutcome.failure msg,
         (env mk (buildPrompt task (pt pid fmt) fmt)).2) := by
      rw [← houtcome]
    rw [runSingleTest_failure_record env pt gtp mk fmt pid task msg
      (env mk (buildPrompt task (pt pid fmt) fmt)).2 hreg hne henv]
    exact ⟨_, rfl, rfl, rfl, rfl, rfl⟩

/-- A run over trials that all have registered models and present
ground-truth entries yields one record per trial, in order, with matching
identity tuples. -/
theorem runTrials_ok (env : Env) (pt : String → String → String)
    (gt : String → String → Option String) (trials : List Trial)
    (henv : ∀ mk prompt msg, (env mk prompt).1 = .failure msg → msg ≠ "")
    (h : ∀ tr ∈ trials, registered tr.model = true ∧
      (gt tr.page tr.task.id).isSome = true) :
    ∃ recs, (runTrials env pt gt trials).2 = .ok recs
      ∧ recs.map recKey = trials.map trialKey := by
  induction trials with
  | nil => exact ⟨[], rfl, rfl⟩
  | cons tr rest ih =>
    rcases h tr (List.mem_cons_self _ _) with ⟨hreg, hgt⟩
    rcases runSingleTest_ok_fields env pt (gt tr.page) tr.model tr.format
      tr.page tr.task hreg hgt (fun msg hm => henv tr.model _ msg hm) with
      ⟨rec, hrec, hm, hf, hp, ht⟩
    rcases ih (fun x hx => h x (List.mem_cons_of_mem _ hx)) with
      ⟨recs, hrecs, hmap⟩
    refine ⟨{ rec with runIdx := some tr.runIdx } :: recs, ?_, ?_⟩
    · simp only [runTrials]
      rw [hrec, hrecs]
    · rw [List.map_cons, hmap]
      have hkey : recKey { rec with runIdx := some tr.runIdx } = trialKey tr := by
        simp [recKey, trialKey, hm, hf, hp, ht]
      rw [hkey]
      exact (List.map_cons _ _ _).symm

/-- C1 counterexample: a configuration satisfying the claim hypotheses
(the page file and the ground-truth file load, the single model is in the
registry) whose loaded ground truth simply lacks an entry for the task
id.  The dispatch succeeds, the ground-truth lookup throws, and the run
aborts with zero records instead of producing the 1 record the claim
demands. -/
theorem c1_counterexample :
    (run ⟨["p"], ["gpt-4o"], ["sifr"], [⟨"t1", "q", "numeric"⟩], 1⟩
        (fun _ _ => (.success "ANSWER: 3" 10, 5)) (fun _ _ => "ctx")
        (fun _ _ => none)).2 =
      .error "TypeError: cannot read answer of undefined" := rfl

/-- C1 (amended): for every configuration whose model identifiers are all
registered, whose ground-truth mappings contain an entry for every
(page, task id) pair, and where every dispatch failure carries a
non-empty error description (an empty caught message is falsy under the
source's `if (error)` test and instead crashes the trial on parsing the
null reply), with distinct pages, models, formats and task ids, the run
returns — regardless of dispatch successes and failures — a record list
whose identity tuples are exactly the cross-product tuples in nesting
order page, model, format, task, run index; in particular there are
P*M*F*T*R records, without duplicates, and every in-range tuple occurs. -/
theorem c1_run_produces_full_grid (cfg : Config) (env : Env)
    (pt : String → String → String) (gt : String → String → Option String)
    (henv : ∀ mk prompt msg, (env mk prompt).1 = .failure msg → msg ≠ "")
    (hmods : ∀ m ∈ cfg.models, registered m = true)
    (hgt : ∀ p ∈ cfg.pages, ∀ t ∈ cfg.tasks, (gt p t.id).isSome = true)
    (hnp : cfg.pages.Nodup) (hnm : cfg.models.Nodup)
    (hnf : cfg.formats.Nodup) (hnt : (cfg.tasks.map Task.id).Nodup) :
    ∃ recs, (run cfg env pt gt).2 = .ok recs
      ∧ recs.map recKey = keyTuples cfg
      ∧ recs.length = cfg.pages.length * cfg.models.length *
          cfg.formats.length * cfg.tasks.length * cfg.runs
      ∧ (recs.map recKey).Nodup
      ∧ (∀ p ∈ cfg.pages, ∀ m ∈ cfg.models, ∀ f ∈ cfg.formats,
          ∀ t ∈ cfg.tasks, ∀ n, 1 ≤ n → n ≤ cfg.runs →
            (p, m, f, t.id, some n) ∈ recs.map recKey) := by
  have htr : ∀ tr ∈ trialList cfg, registered tr.model = true ∧
      (gt tr.page tr.task.id).isSome = true := by
    intro tr htrm
    rcases mem_trialList_components htrm with ⟨hp, hm, hf, ht⟩
    exact ⟨hmods tr.model hm, hgt tr.page hp tr.task ht⟩
  rcases runTrials_ok env pt gt (trialList cfg) henv htr with ⟨recs, hok, hmap⟩
  refine ⟨recs, hok, hmap, ?_, ?_, ?_⟩
  · have h1 : recs.length = (recs.map recKey).length := (List.length_map _ _).symm
    rw [h1, hmap, List.length_map, trialList_length]
  · rw [hmap]
    exact keyTuples_nodup cfg hnp hnm hnf hnt
  · intro p hp m hm f hf t ht n h1 h2
    rw [hmap]
    exact mem_keyTuples hp hm hf ⟨t, ht, rfl⟩ h1 h2

/-- Witness for C1 at a two-model, two-format configuration every one of
whose dispatches fails (with a non-empty message): the full
1*2*2*1*2 grid of records still appears, in order. -/
theorem c1_witness :
    ∃ recs,
      (run ⟨["p"], ["gpt-4o", "claude-sonnet"], ["sifr", "axtree"],
            [⟨"t1", "q", "numeric"⟩], 2⟩
          (fun _ _ => (.failure "rate limit", 3))
          (fun _ _ => "ctx") (fun _ _ => some "3")).2 = .ok recs
      ∧ recs.map recKey = keyTuples ⟨["p"], ["gpt-4o", "claude-sonnet"],
          ["sifr", "axtree"], [⟨"t1", "q", "numeric"⟩], 2⟩
      ∧ recs.length = 1 * 2 * 2 * 1 * 2
      ∧ (recs.map recKey).Nodup
      ∧ (∀ p ∈ ["p"], ∀ m ∈ ["gpt-4o", "claude-sonnet"],
          ∀ f ∈ ["sifr", "axtree"], ∀ t ∈ [(⟨"t1", "q", "numeric"⟩ : Task)],
          ∀ n, 1 ≤ n → n ≤ 2 →
            (p, m, f, t.id, some n) ∈ recs.map recKey) :=
  c1_run_produces_full_grid
    ⟨["p"], ["gpt-4o", "claude-sonnet"], ["sifr", "axtree"],
      [⟨"t1", "q", "numeric"⟩], 2⟩
    (fun _ _ => (.failure "rate limit", 3))
    (fun _ _ => "ctx") (fun _ _ => some "3")
    (fun _ _ msg h => by injection h with h2; rw [← h2]; decide)
    (by decide) (by decide) (by decide) (by decide) (by decide) (by decide)

/-! ## Claim C5 -/

/-- Deduplication does not change the set of members. -/
theorem toFinset_jsSetList {α : Type} [DecidableEq α] (l : List α) :
    (jsSetList l).toFinset = l.toFinset := by
  ext x
  simp [List.mem_toFinset, mem_jsSetList]

/-- The size of a JavaScript set is the cardinality of the member set. -/
theorem length_jsSetList_eq_card {α : Type} [DecidableEq α] (l : List α) :
    (jsSetList l).length = l.toFinset.card := by
  rw [← toFinset_jsSetList]
  exact (List.toFinset_card_of_nodup (jsSetList_nodup l)).symm

/-- The intersection loop of the precision-recall branch computes the
cardinality of the set intersection. -/
theorem filter_inter_length {α : Type} [DecidableEq α] (p t : List α) :
    ((jsSetList p).filter (fun x => x ∈ jsSetList t)).length =
      (p.toFinset ∩ t.toFinset).card := by
  have hnd : ((jsSetList p).filter (fun x => x ∈ jsSetList t)).Nodup :=
    (jsSetList_nodup p).filter _
  have hset : ((jsSetList p).filter (fun x => x ∈ jsSetList t)).toFinset =
      p.toFinset ∩ t.toFinset := by
    ext x
    simp [List.mem_toFinset, List.mem_filter, mem_jsSetList, Finset.mem_inter]
  rw [← hset]
  exact (List.toFinset_card_of_nodup hnd).symm

/-- The precision-recall branch of `scoreResponse`, isolated. -/
theorem scoreResponse_precision_recall (parsed : ParsedAnswer)
    (truth : String) :
    scoreResponse parsed truth "precision_recall" =
      (let predSet := jsSetList ((jsSplit (jsNorm parsed.answer) ',').map jsTrim)
       let truthSet := jsSetList ((jsSplit (jsNorm truth) ',').map jsTrim)
       let inter := predSet.filter (fun x => x ∈ truthSet)
       let precision : ℚ := (inter.length : ℚ) / (predSet.length : ℚ)
       let rcl : ℚ := (inter.length : ℚ) / (truthSet.length : ℚ)
       if precision + rcl > 0 then 2 * precision * rcl / (precision + rcl)
       else 0) := by
  unfold scoreResponse
  rw [if_neg (by decide), if_neg (by decide), if_neg (by decide), if_pos rfl]

/-- C5 counterexample: the empty predicted answer against the empty
ground truth scores 1.0 in the code (both token sets are the singleton
of the empty token), while the claim — whose wording makes the empty
predicted answer have precision 0 and the empty truth recall 0 — demands
0.0. -/
theorem c5_counterexample :
    scoreResponse ⟨"", 0, ""⟩ "" "precision_recall" = 1 ∧
    precisionRecallClaim "" "" = 0 ∧ (1 : ℚ) ≠ 0 :=
  ⟨by decide, by decide, by norm_num⟩

/-- C5 (amended): the precision-recall score is the F1 harmonic mean over
the sets of trimmed comma-separated tokens where splitting keeps empty
tokens (splitting the empty string yields the singleton set of the empty
token, so the predicted set is never empty); precision is the
intersection size over the predicted set size and recall the
intersection size over the truth set size, with 0.0 when both are zero;
an empty predicted answer yields score 0 whenever the truth token set
does not contain the empty token; and predicted a, b against truth a, c
scores 0.5. -/
theorem c5_precision_recall_f1 (parsed : ParsedAnswer) (truth : String) :
    (scoreResponse parsed truth "precision_recall" =
      (let P := tokenFinset (jsNorm parsed.answer)
       let T := tokenFinset (jsNorm truth)
       let precision : ℚ := ((P ∩ T).card : ℚ) / (P.card : ℚ)
       let rcl : ℚ := ((P ∩ T).card : ℚ) / (T.card : ℚ)
       if precision + rcl > 0 then 2 * precision * rcl / (precision + rcl)
       else 0))
    ∧ (jsNorm parsed.answer = "" → "" ∉ tokenFinset (jsNorm truth) →
        scoreResponse parsed truth "precision_recall" = 0)
    ∧ scoreResponse ⟨"a, b", 0, ""⟩ "a, c" "precision_recall" = 1/2 := by
  have main : scoreResponse parsed truth "precision_recall" =
      (let P := tokenFinset (jsNorm parsed.answer)
       let T := tokenFinset (jsNorm truth)
       let precision : ℚ := ((P ∩ T).card : ℚ) / (P.card : ℚ)
       let rcl : ℚ := ((P ∩ T).card : ℚ) / (T.card : ℚ)
       if precision + rcl > 0 then 2 * precision * rcl / (precision + rcl)
       else 0) := by
    rw [scoreResponse_precision_recall]
    simp only [tokenFinset]
    rw [filter_inter_length, length_jsSetList_eq_card, length_jsSetList_eq_card]
  refine ⟨main, ?_, by decide⟩
  intro h1 h2
  rw [main, h1]
  have hP : tokenFinset "" = {""} := by decide
  rw [hP]
  simp only [Finset.singleton_inter_of_not_mem h2, Finset.card_empty,
    Finset.card_singleton]
  norm_num

/-- Witness for C5: the empty predicted answer against the truth a (whose
token set does not contain the empty token) scores 0. -/
theorem c5_witness :
    jsNorm "" = "" ∧ "" ∉ tokenFinset (jsNorm "a") ∧
    scoreResponse ⟨"", 0, ""⟩ "a" "precision_recall" = 0 :=
  ⟨by decide, by decide,
   (c5_precision_recall_f1 ⟨"", 0, ""⟩ "a").2.1 (by decide) (by decide)⟩

/-! ## Claim C3 -/

/-- Every provider call `runSingleTest` makes is for a registered model:
the registry lookup throws before the network call for an unknown key. -/
theorem runSingleTest_calls_registered (env : Env)
    (pt : String → String → String) (gtp : String → Option String)
    (mk fmt pid : String) (task : Task) :
    ∀ c ∈ (runSingleTest env pt gtp mk fmt pid task).1,
      registered c.model = true := by
  intro c hc
  simp only [runSingleTest] at hc
  cases hreg : registered mk with
  | true =>
    rw [queryModel_ok hreg] at hc
    simp at hc
    rw [hc]
    exact hreg
  | false =>
    rw [queryModel_error hreg] at hc
    simp at hc

/-- The function `runSingleTest` only returns a record when its model key is
registered. -/
theorem runSingleTest_ok_registered {env : Env}
    {pt : String → String → String} {gtp : String → Option String}
    {mk fmt pid : String} {task : Task} {rec : TrialRecord}
    (h : (runSingleTest env pt gtp mk fmt pid task).2 = .ok rec) :
    registered mk = true := by
  cases hreg : registered mk with
  | true => rfl
  | false =>
    simp only [runSingleTest] at h
    rw [queryModel_error hreg] at h
    simp at h

/-- Every provider call of a whole run is for a registered model. -/
theorem runTrials_calls_registered (env : Env)
    (pt : String → String → String) (gt : String → String → Option String)
    (trials : List Trial) :
    ∀ c ∈ (runTrials env pt gt trials).1, registered c.model = true := by
  induction trials with
  | nil =>
    intro c hc
    simp [runTrials] at hc
  | cons tr rest ih =>
    intro c hc
    simp only [runTrials] at hc
    rcases hstep : (runSingleTest env pt (gt tr.page) tr.model tr.format
        tr.page tr.task).2 with e | record
    · rw [hstep] at hc
      exact runSingleTest_calls_registered env pt (gt tr.page) tr.model
        tr.format tr.page tr.task c hc
    · rw [hstep] at hc
      rcases List.mem_append.mp hc with hc | hc
      · exact runSingleTest_calls_registered env pt (gt tr.page) tr.model
          tr.format tr.page tr.task c hc
      · exact ih c hc

/-- A run that returns its record list had every enumerated model
registered. -/
theorem runTrials_ok_registered {env : Env}
    {pt : String → String → String} {gt : String → String → Option String}
    {trials : List Trial} {recs : List TrialRecord}
    (h : (runTrials env pt gt trials).2 = .ok recs) :
    ∀ tr ∈ trials, registered tr.model = true := by
  induction trials generalizing recs with
  | nil =>
    intro tr htr
    simp at htr
  | cons t0 rest ih =>
    intro tr htr
    simp only [runTrials] at h
    rcases hstep : (runSingleTest env pt (gt t0.page) t0.model t0.format
        t0.page t0.task).2 with e | record
    · rw [hstep] at h
      simp at h
    · rw [hstep] at h
      rcases hnext : (runTrials env pt gt rest).2 with e | l
      · rw [hnext] at h
        simp at h
      · rcases List.mem_cons.mp htr with heq | hmem
        · rw [heq]
          exact runSingleTest_ok_registered hstep
        · exact ih hnext tr hmem

/-- Constructing a member of the trial cross-product. -/
theorem trial_mem_trialList {cfg : Config} {p m f : String} {t : Task}
    {r : Nat} (hp : p ∈ cfg.pages) (hm : m ∈ cfg.models)
    (hf : f ∈ cfg.formats) (ht : t ∈ cfg.tasks) (hr : r < cfg.runs) :
    (⟨p, m, f, t, r + 1⟩ : Trial) ∈ trialList cfg := by
  simp only [trialList, List.mem_flatMap, List.mem_map, List.mem_range]
  exact ⟨p, hp, m, hm, f, hf, t, ht, r, hr, rfl⟩

/-- C3 counterexample: with the model list [gpt-4o, nope] and nope absent
from the registry, the run aborts with the configuration TypeError, but
only after the provider call for the gpt-4o combination was already
issued — the error is not raised before the first dispatch of the run. -/
theorem c3_counterexample :
    (run ⟨["p"], ["gpt-4o", "nope"], ["sifr"], [⟨"t1", "q", "numeric"⟩], 1⟩
        (fun _ _ => (.success "ANSWER: 3" 10, 5)) (fun _ _ => "ctx")
        (fun _ _ => some "3")).1.length = 1 ∧
    (run ⟨["p"], ["gpt-4o", "nope"], ["sifr"], [⟨"t1", "q", "numeric"⟩], 1⟩
        (fun _ _ => (.success "ANSWER: 3" 10, 5)) (fun _ _ => "ctx")
        (fun _ _ => some "3")).2 =
      .error "TypeError: cannot destructure MODELS entry" :=
  ⟨rfl, rfl⟩

/-- C3 (amended): a configuration containing a model identifier absent
from the registry (with nonempty pages, formats and tasks and at least
one repetition) makes the run raise the configuration TypeError — it
aborts rather than silently skipping the unknown model — and no network
call is ever made for an unregistered identifier; the error is raised
when the first combination of the unknown model is reached, so dispatches
of combinations enumerated before it do occur. -/
theorem c3_unknown_model_aborts (cfg : Config) (env : Env)
    (pt : String → String → String) (gt : String → String → Option String)
    (m : String) (hm : m ∈ cfg.models) (hr : registered m = false)
    (hp : cfg.pages ≠ []) (hf : cfg.formats ≠ []) (ht : cfg.tasks ≠ [])
    (hruns : 0 < cfg.runs) :
    (∃ e, (run cfg env pt gt).2 = .error e) ∧
    (∀ c ∈ (run cfg env pt gt).1, registered c.model = true) := by
  refine ⟨?_, runTrials_calls_registered env pt gt (trialList cfg)⟩
  rcases List.exists_mem_of_ne_nil _ hp with ⟨p, hpm⟩
  rcases List.exists_mem_of_ne_nil _ hf with ⟨f, hfm⟩
  rcases List.exists_mem_of_ne_nil _ ht with ⟨t, htm⟩
  rcases hres : (run cfg env pt gt).2 with e | recs
  · exact ⟨e, rfl⟩
  · exfalso
    have hreg := runTrials_ok_registered hres (⟨p, m, f, t, 0 + 1⟩ : Trial)
      (trial_mem_trialList hpm hm hfm htm hruns)
    rw [hr] at hreg
    exact Bool.false_ne_true hreg

/-- Witness for C3 at a concrete configuration with one unknown model. -/
theorem c3_witness :
    (∃ e, (run ⟨["p"], ["gpt-4o", "nope"], ["sifr"], [⟨"t1", "q", "numeric"⟩], 1⟩
        (fun _ _ => (.success "ANSWER: 3" 10, 5)) (fun _ _ => "ctx")
        (fun _ _ => some "3")).2 = .error e) ∧
    (∀ c ∈ (run ⟨["p"], ["gpt-4o", "nope"], ["sifr"], [⟨"t1", "q", "numeric"⟩], 1⟩
        (fun _ _ => (.success "ANSWER: 3" 10, 5)) (fun _ _ => "ctx")
        (fun _ _ => some "3")).1, registered c.model = true) :=
  c3_unknown_model_aborts
    ⟨["p"], ["gpt-4o", "nope"], ["sifr"], [⟨"t1", "q", "numeric"⟩], 1⟩
    (fun _ _ => (.success "ANSWER: 3" 10, 5)) (fun _ _ => "ctx")
    (fun _ _ => some "3") "nope" (by decide) (by decide) (by decide)
    (by decide) (by decide) (by decide)

/-- Witness for C4 at two concrete failing trials: a non-empty message
yields the early record without tokens or latency, and the empty message
falls through and throws. -/
theorem c4_witness :
    registered "gpt-4o" = true ∧
    (runSingleTest (fun _ _ => (.failure "down", 11)) (fun _ _ => "page")
        (fun _ => some "7") "gpt-4o" "axtree" "p2" ⟨"t9", "q", "numeric"⟩).2 =
      .ok { model := "gpt-4o", format := "axtree", pageId := "p2",
            taskId := "t9", score := 0, error := some "down",
            response := none, confidence := none, evidence := none,
            expected := none, tokens := none, latency := none,
            runIdx := none } ∧
    (runSingleTest (fun _ _ => (.failure "", 11)) (fun _ _ => "page")
        (fun _ => some "7") "gpt-4o" "axtree" "p2" ⟨"t9", "q", "numeric"⟩).2 =
      .error "TypeError: cannot split null" :=
  ⟨by decide,
   (c4_error_trial_record (fun _ _ => (.failure "down", 11))
     (fun _ _ => "page") (fun _ => some "7") "gpt-4o" "axtree" "p2"
     ⟨"t9", "q", "numeric"⟩ "down" 11 (by decide) rfl).1 (by decide),
   (c4_error_trial_record (fun _ _ => (.failure "", 11))
     (fun _ _ => "page") (fun _ => some "7") "gpt-4o" "axtree" "p2"
     ⟨"t9", "q", "numeric"⟩ "" 11 (by decide) rfl).2 rfl⟩

end Sifr
